import Mathlib

set_option maxRecDepth 8000

/-!
Verification of `groauto_script.py`, a GROMACS automation script.

The script has three parts, all embedded below:

* `write_mdp_files(temp, ns_length)` builds five `.mdp` parameter files by
  string formatting and writes them into the working directory;
* `run_step(command, input_val)` runs one external command, printing a
  diagnostic and exiting with status 1 when the command exits non-zero;
* a linear driver that reads a temperature, a simulation length and a
  structure base name from the console and runs a fixed command pipeline.

Numbers flowing into the templates pass through Python `float` arithmetic
(`float(user_ns)`, `ns_length * 1000000`, `int(...)`).  Python floats are
IEEE-754 binary64 values; we embed them exactly as dyadic rationals
`(s, t) : ℤ × ℤ` denoting `s * 2^t`, with round-to-nearest-even implemented
over the integers.  The model covers finite values (overflow to infinity and
NaN never arise on the inputs considered; they are outside the model).
-/

namespace Groauto

/-! ## Small integer helpers (kernel-friendly powers and logs) -/

/-- `2 ^ j` as an integer, computed through `Nat.pow`. -/
def pow2 (j : ℕ) : ℤ := ((2 ^ j : ℕ) : ℤ)

/-- `10 ^ j` as an integer, computed through `Nat.pow`. -/
def pow10 (j : ℕ) : ℤ := ((10 ^ j : ℕ) : ℤ)

/-- Fuelled base-2 logarithm on `ℕ` (structural recursion on the fuel, so
that it reduces inside the kernel). -/
def natLog2F : ℕ → ℕ → ℕ
  | 0, _ => 0
  | f + 1, n => if n < 2 then 0 else natLog2F f (n / 2) + 1

/-- `⌊log₂ n⌋` for `1 ≤ n` (and `0` at `0`). -/
def natLog2 (n : ℕ) : ℕ := natLog2F n n

/-- `pow2le e n d` decides `2^e ≤ n / d` for positive `n`, `d`, entirely in
integer arithmetic (`e` may be negative). -/
def pow2le (e : ℤ) (n d : ℤ) : Bool :=
  if 0 ≤ e then decide (d * pow2 e.toNat ≤ n) else decide (d ≤ n * pow2 (-e).toNat)

/-- `⌊log₂ (n / d)⌋` for positive `n`, `d`: a first guess from the bit
lengths of `n` and `d`, corrected by at most one in either direction. -/
def flog2Frac (n d : ℤ) : ℤ :=
  let g : ℤ := (natLog2 n.toNat : ℤ) - (natLog2 d.toNat : ℤ)
  if pow2le (g + 1) n d then g + 1
  else if pow2le g n d then g
  else g - 1

/-- Round `n / d` (with `0 ≤ n`, `0 < d`) to the nearest integer, ties to
even: the rounding used by IEEE-754 binary64 arithmetic. -/
def rneDiv (n d : ℤ) : ℤ :=
  let q := n.ediv d
  let r := n.emod d
  if 2 * r < d then q
  else if d < 2 * r then q + 1
  else if q.emod 2 = 0 then q else q + 1

/-! ## Binary64 model

A finite Python float is represented as a pair `(s, t) : ℤ × ℤ` denoting the
dyadic rational `s * 2^t`.  `roundFrac n d` is the binary64 value nearest to
`n / d` (ties to even), including gradual underflow via the exponent clamp at
`-1022`; overflow to infinity is not modelled (all values in the claims are
far below the overflow threshold `2^1024`). -/

/-- Round the positive fraction `n / d` to binary64, returning `(s, t)` with
value `s * 2^t`. -/
def roundPosFrac (n d : ℤ) : ℤ × ℤ :=
  let e := max (flog2Frac n d) (-1022)
  let k := 52 - e
  if 0 ≤ k then (rneDiv (n * pow2 k.toNat) d, e - 52)
  else (rneDiv n (d * pow2 (-k).toNat), e - 52)

/-- Round the fraction `n / d` (`0 < d`) to binary64. -/
def roundFrac (n d : ℤ) : ℤ × ℤ :=
  if n = 0 then (0, 0)
  else if n < 0 then
    let p := roundPosFrac (-n) d
    (-p.1, p.2)
  else roundPosFrac n d

/-- Conversion of a Python `int` to `float` (exact below `2^53`, correctly
rounded above). -/
def intToDouble (n : ℤ) : ℤ × ℤ := roundFrac n 1

/-- Re-round a dyadic value `s * 2^t` to binary64 (used after an exact
product of two binary64 values). -/
def roundDyadic (s t : ℤ) : ℤ × ℤ :=
  if 0 ≤ t then roundFrac (s * pow2 t.toNat) 1 else roundFrac s (pow2 (-t).toNat)

/-- IEEE-754 binary64 multiplication: exact product, then one rounding. -/
def mulDouble (a b : ℤ × ℤ) : ℤ × ℤ := roundDyadic (a.1 * b.1) (a.2 + b.2)

/-- Python `int(x)` on a finite float `x`: truncation toward zero. -/
def truncDyadic : ℤ × ℤ → ℤ
  | (s, t) =>
    if 0 ≤ t then s * pow2 t.toNat
    else if 0 ≤ s then ((s.toNat / 2 ^ (-t).toNat : ℕ) : ℤ)
    else -(((-s).toNat / 2 ^ (-t).toNat : ℕ) : ℤ)

/-- The binary64 value resulting from Python `float` applied to a decimal
with integer mantissa `m` and decimal exponent `e` (value `m * 10^e`):
CPython string-to-float conversion is correctly rounded. -/
def fromDecimal : ℤ × ℤ → ℤ × ℤ
  | (m, e) =>
    if 0 ≤ e then roundFrac (m * pow10 e.toNat) 1 else roundFrac m (pow10 (-e).toNat)

/-! ## Python values and console input

`input(...) or default` yields the `int` default on a blank line and the raw
string otherwise; the script never converts the temperature, so the variable
holds either an `int` or a `str`. -/

/-- A Python value as it occurs in the script: an `int` or a `str`. -/
inductive PyVal where
  | int (n : ℤ)
  | str (s : String)
deriving DecidableEq

/-- `input(...) or d`: the `int` default on a blank line, else the raw string. -/
def inputOr (s : String) (d : ℤ) : PyVal :=
  if s = "" then .int d else .str s

/-- Python `str()` / f-string formatting of the two value shapes above. -/
def pyStr : PyVal → String
  | .int n => toString n
  | .str s => s

/-- Line 110: `user_temp = input("Enter simulation temperature (default 298): ") or 298`. -/
def user_temp (s : String) : PyVal := inputOr s 298

/-- Line 111: `user_ns = input("Enter simulation length in ns (default 50): ") or 50`. -/
def user_ns (s : String) : PyVal := inputOr s 50

/-! ## Python `float()` string parsing

`parsePyFloat` models CPython `float(str)` on ordinary decimal literals:
optional surrounding whitespace, an optional sign, digits with an optional
decimal point, and an optional exponent part; any other character makes the
conversion raise `ValueError` (`none`).  The result is the exact decimal
value `(m, e)` denoting `m * 10^e` (rounding to binary64 happens in
`fromDecimal`).  Not modelled: `inf`/`nan` spellings and digit-group
underscores, which no claim exercises. -/

/-- ASCII digit test. -/
def isDigitC (c : Char) : Bool := 48 ≤ c.toNat && c.toNat ≤ 57

/-- Whitespace as stripped by Python `str.strip()` and `float()`. -/
def isSpaceC (c : Char) : Bool :=
  c.toNat = 32 || c.toNat = 9 || c.toNat = 10 || c.toNat = 13 || c.toNat = 11 || c.toNat = 12

/-- Strip whitespace from both ends of a character list. -/
def trimChars (l : List Char) : List Char :=
  ((l.dropWhile isSpaceC).reverse.dropWhile isSpaceC).reverse

/-- Python `str.strip()`. -/
def stripStr (s : String) : String := ⟨trimChars s.data⟩

/-- Numeric value of a digit string. -/
def digitsToNat (l : List Char) : ℕ := l.foldl (fun a c => a * 10 + (c.toNat - 48)) 0

/-- Parse the exponent part after `e`/`E`: optional sign then one or more
digits, consuming the whole remainder. -/
def parseExpPart (cs : List Char) : Option ℤ :=
  match cs with
  | '+' :: r => if r ≠ [] ∧ r.all isDigitC then some ((digitsToNat r : ℤ)) else none
  | '-' :: r => if r ≠ [] ∧ r.all isDigitC then some (-(digitsToNat r : ℤ)) else none
  | r => if r ≠ [] ∧ r.all isDigitC then some ((digitsToNat r : ℤ)) else none

/-- Parse the mantissa `digits[.digits]` (at least one digit overall),
returning its value as `(m, e)` with value `m * 10^e` plus the remainder. -/
def parseMant (cs : List Char) : Option ((ℤ × ℤ) × List Char) :=
  let ip := cs.takeWhile isDigitC
  let r1 := cs.dropWhile isDigitC
  match r1 with
  | '.' :: r2 =>
    let fp := r2.takeWhile isDigitC
    let r3 := r2.dropWhile isDigitC
    if ip = [] ∧ fp = [] then none
    else some (((digitsToNat ip * pow10 fp.length + digitsToNat fp), -(fp.length : ℤ)), r3)
  | _ => if ip = [] then none else some (((digitsToNat ip : ℤ), 0), r1)

/-- Parse an unsigned decimal literal with optional exponent part. -/
def parseUnsigned (cs : List Char) : Option (ℤ × ℤ) :=
  match parseMant cs with
  | none => none
  | some ((m, e), rest) =>
    match rest with
    | [] => some (m, e)
    | c :: r =>
      if c = 'e' ∨ c = 'E' then
        match parseExpPart r with
        | none => none
        | some ex => some (m, e + ex)
      else none

/-- CPython `float(str)` on decimal literals, as the exact decimal value
`(m, e)`; `none` models the `ValueError` raised on unparseable input. -/
def parsePyFloat (s : String) : Option (ℤ × ℤ) :=
  match trimChars s.data with
  | [] => none
  | '+' :: r => parseUnsigned r
  | '-' :: r => (parseUnsigned r).map (fun p => (-p.1, p.2))
  | cs => parseUnsigned cs

/-- Python `float()` applied to the value of `input(...) or default`:
an `int` converts exactly (below `2^53`), a string is parsed then rounded. -/
def pyFloat : PyVal → Option (ℤ × ℤ)
  | .int n => some (intToDouble n)
  | .str s => (parsePyFloat s).map fromDecimal

/-! ## The template writer `write_mdp_files` (lines 5–93)

Line 10: `total_steps = int(ns_length * 1000000)` with `ns_length` a float
(the script always passes `float(user_ns)`).  The file contents are the
f-strings of lines 12–88, transcribed verbatim; each substitution site is an
explicit `++`. -/

/-- Line 10: `total_steps = int(ns_length * 1000000)`. -/
def total_steps (ns_length : ℤ × ℤ) : ℤ :=
  truncDyadic (mulDouble ns_length (intToDouble 1000000))

/-- Content of `ions.mdp` (line 13). -/
def ions_mdp : String := "integrator = steep\n"

/-- Content of `minim.mdp` (lines 15–27). -/
def minim_mdp : String :=
  "integrator  = steep\n" ++
  "emtol       = 1000.0\n" ++
  "emstep      = 0.01\n" ++
  "nsteps      = 50000\n" ++
  "nstlist     = 1\n" ++
  "cutoff-scheme = Verlet\n" ++
  "ns_type     = grid\n" ++
  "coulombtype = PME\n" ++
  "rcoulomb    = 1.0\n" ++
  "rvdw        = 1.0\n" ++
  "pbc         = xyz\n"

/-- `nvt.mdp` boilerplate before the `ref_t` substitution (lines 30–38). -/
def nvtPre : String :=
  "define                  = -DPOSRES\n" ++
  "integrator              = md\n" ++
  "dt                      = 0.001\n" ++
  "nsteps                  = 50000\n" ++
  "nstxout                 = 500\n" ++
  "tcoupl                  = v-rescale\n" ++
  "tc-grps                 = Protein Non-Protein\n" ++
  "tau_t                   = 0.1     0.1\n" ++
  "ref_t                   = "

/-- The gap between the two `{temp}` substitutions on a `ref_t` line. -/
def tempGap : String := "     "

/-- `nvt.mdp` boilerplate after the `ref_t` substitution (lines 38–40). -/
def nvtPost : String :=
  "\n" ++
  "pcoupl                  = no\n" ++
  "pbc                     = xyz\n"

/-- Content of `nvt.mdp` (lines 29–41): boilerplate with the temperature
substituted twice on the `ref_t` line. -/
def nvt_mdp (temp : String) : String :=
  nvtPre ++ temp ++ tempGap ++ temp ++ nvtPost

/-- `npt.mdp` boilerplate before the `ref_t` substitution (lines 44–52). -/
def nptPre : String :=
  "define                  = -DPOSRES\n" ++
  "integrator              = md\n" ++
  "dt                      = 0.001\n" ++
  "nsteps                  = 50000\n" ++
  "nstxout                 = 500\n" ++
  "tcoupl                  = v-rescale\n" ++
  "tc-grps                 = Protein Non-Protein\n" ++
  "tau_t                   = 0.1     0.1\n" ++
  "ref_t                   = "

/-- `npt.mdp` boilerplate after the `ref_t` substitution (lines 52–63). -/
def nptPost : String :=
  "\n" ++
  "pcoupl                  = c-rescale\n" ++
  "pcoupltype              = isotropic\n" ++
  "tau_p                   = 2.0\n" ++
  "compressibility         = 4.5e-5\n" ++
  "ref_p                   = 1.0\n" ++
  "refcoord_scaling        = com\n" ++
  "coulombtype             = PME\n" ++
  "rcoulomb                = 1.0\n" ++
  "fourierspacing          = 0.12\n" ++
  "pme_order               = 4\n" ++
  "constraints             = h-bonds\n"

/-- Content of `npt.mdp` (lines 43–64). -/
def npt_mdp (temp : String) : String :=
  nptPre ++ temp ++ tempGap ++ temp ++ nptPost

/-- `md.mdp` boilerplate before the `nsteps` substitution (lines 67–69). -/
def mdPre : String :=
  "integrator              = md\n" ++
  "dt                      = 0.001\n" ++
  "nsteps                  = "

/-- `md.mdp` boilerplate between the `nsteps` and `ref_t` substitutions
(lines 69–74). -/
def mdMid : String :=
  "\n" ++
  "nstxout-compressed      = 5000\n" ++
  "tcoupl                  = v-rescale\n" ++
  "tc-grps                 = Protein Non-Protein\n" ++
  "tau_t                   = 0.1     0.1\n" ++
  "ref_t                   = "

/-- `md.mdp` boilerplate after the `ref_t` substitution (lines 74–87). -/
def mdPost : String :=
  "\n" ++
  "pcoupl                  = c-rescale\n" ++
  "pcoupltype              = isotropic\n" ++
  "tau_p                   = 2.0\n" ++
  "ref_p                   = 1.0\n" ++
  "compressibility         = 4.5e-5\n" ++
  "coulombtype             = PME\n" ++
  "rcoulomb                = 1.0\n" ++
  "fourierspacing          = 0.12\n" ++
  "pme_order               = 4\n" ++
  "vdw-type                = Cut-off\n" ++
  "rvdw                    = 1.0\n" ++
  "compressed-x-grps       = Protein\n"

/-- Content of `md.mdp` (lines 66–87): boilerplate with the step count
substituted once and the temperature substituted twice. -/
def md_mdp (temp : String) (totalSteps : ℤ) : String :=
  mdPre ++ toString totalSteps ++ mdMid ++ temp ++ tempGap ++ temp ++ mdPost

/-- The `mdp_content` dict of lines 12–88 in insertion order: filename and
content of the five generated files. -/
def mdp_content (temp : PyVal) (totalSteps : ℤ) : List (String × String) :=
  [("ions.mdp", ions_mdp),
   ("minim.mdp", minim_mdp),
   ("nvt.mdp", nvt_mdp (pyStr temp)),
   ("npt.mdp", npt_mdp (pyStr temp)),
   ("md.mdp", md_mdp (pyStr temp) totalSteps)]

/-- `write_mdp_files(temp, ns_length)` as a value: the five `(name, content)`
pairs it writes, in order. -/
def write_mdp_files (temp : PyVal) (ns_length : ℤ × ℤ) : List (String × String) :=
  mdp_content temp (total_steps ns_length)

/-! ## Filesystem effect of the writer (lines 90–92) -/

/-- The working directory as a map from filename to content. -/
def FS : Type := String → Option String

/-- An empty working directory. -/
def emptyFS : FS := fun _ => none

/-- `open(filename, "w")` followed by `f.write(content)`: create or truncate,
then write the full content. -/
def writeFile (fs : FS) (name content : String) : FS :=
  fun n => if n = name then some content else fs n

/-- The write loop of lines 90–92 applied to `write_mdp_files`. -/
def write_mdp_files_fs (temp : PyVal) (ns_length : ℤ × ℤ) (fs : FS) : FS :=
  (write_mdp_files temp ns_length).foldl (fun a p => writeFile a p.1 p.2) fs

/-- Lines 110–114 of the driver: read the two inputs, then
`write_mdp_files(temp=user_temp, ns_length=float(user_ns))`.  `float(user_ns)`
is evaluated before the call; when it raises `ValueError` the uncaught
exception aborts the program and the filesystem is untouched (`some msg`
carries the exception, the second component is the resulting filesystem). -/
def scriptWritePhase (temp_s ns_s : String) (fs : FS) : Option String × FS :=
  match pyFloat (user_ns ns_s) with
  | none => (some "ValueError: could not convert string to float", fs)
  | some nsd => (none, write_mdp_files_fs (user_temp temp_s) nsd fs)

/-! ## The command runner `run_step` and the pipeline (lines 95–142) -/

/-- One `run_step(command, input_val)` call site: the shell command and the
optional line piped to its standard input. -/
structure StepCall where
  command : String
  input_val : Option String
deriving DecidableEq

/-- A single quote character (for the `CalledProcessError` message). -/
def squoteS : String := String.singleton (Char.ofNat 39)

/-- `str(e)` for `e : subprocess.CalledProcessError` with a non-zero shell
exit status. -/
def calledProcessErrorMsg (cmd : String) (code : ℕ) : String :=
  "Command " ++ squoteS ++ cmd ++ squoteS ++ " returned non-zero exit status "
    ++ toString code ++ "."

/-- The diagnostic printed by `run_step` (line 106):
`print(f"Error during execution: {e}")`. -/
def runStepMsg (cmd : String) (code : ℕ) : String :=
  "Error during execution: " ++ calledProcessErrorMsg cmd code

/-- Outcome of running the pipeline: the step calls actually invoked, the
diagnostics printed by `run_step`, and the process exit code. -/
structure PipeResult where
  invoked : List StepCall
  printed : List String
  exitCode : ℕ
deriving DecidableEq

/-- Run the pipeline steps in order under an environment `ec` assigning each
invoked command its shell exit status.  `subprocess.run(..., check=True)`
raises on a non-zero status; `run_step` catches it, prints the diagnostic and
calls `exit(1)`, so no later step is invoked. -/
def runPipeline (ec : StepCall → ℕ) : List StepCall → PipeResult
  | [] => ⟨[], [], 0⟩
  | s :: rest =>
    if ec s = 0 then
      let r := runPipeline ec rest
      ⟨s :: r.invoked, r.printed, r.exitCode⟩
    else
      ⟨[s], [runStepMsg s.command (ec s)], 1⟩

/-- The thirteen `run_step` call sites of lines 117–142 in order, built from
the stripped structure base name (line 117) and `user_ns` (lines 141–142). -/
def pipelineSteps (pdb_input : String) (ns : PyVal) : List StepCall :=
  let pdb_name := stripStr pdb_input
  [⟨"gmx_mpi pdb2gmx -f " ++ pdb_name ++ ".pdb -o protein_processed.gro -water tips3p -ignh",
    some "8"⟩,
   ⟨"gmx_mpi editconf -f protein_processed.gro -o box.gro -c -d 1.0 -bt cubic", none⟩,
   ⟨"gmx_mpi solvate -cp box.gro -cs spc216.gro -o solvated.gro -p topol.top", none⟩,
   ⟨"gmx_mpi grompp -f ions.mdp -c solvated.gro -p topol.top -o ions.tpr", none⟩,
   ⟨"gmx_mpi genion -s ions.tpr -o ions.gro -p topol.top -pname NA -nname CL -neutral",
    some "13"⟩,
   ⟨"gmx_mpi grompp -f minim.mdp -c ions.gro -p topol.top -o em.tpr", none⟩,
   ⟨"gmx_mpi mdrun -v -deffnm em", none⟩,
   ⟨"gmx_mpi grompp -f nvt.mdp -c em.gro -r em.gro -p topol.top -o nvt.tpr", none⟩,
   ⟨"gmx_mpi mdrun -v -deffnm nvt", none⟩,
   ⟨"gmx_mpi grompp -f npt.mdp -c nvt.gro -r nvt.gro -t nvt.cpt -p topol.top -o npt.tpr", none⟩,
   ⟨"gmx_mpi mdrun -v -deffnm npt", none⟩,
   ⟨"gmx_mpi grompp -f md.mdp -c npt.gro -t npt.cpt -p topol.top -o md_" ++ pyStr ns
      ++ "ns.tpr", none⟩,
   ⟨"gmx_mpi mdrun -v -deffnm md_" ++ pyStr ns ++ "ns", none⟩]

/-- `isPrefixC pat l` is `true` iff `pat` is a prefix of `l`. -/
def isPrefixC : List Char → List Char → Bool
  | [], _ => true
  | _ :: _, [] => false
  | a :: as, b :: bs => a == b && isPrefixC as bs

/-- `isInfixC pat l` is `true` iff `pat` occurs contiguously inside `l`. -/
def isInfixC (pat : List Char) : List Char → Bool
  | [] => pat.isEmpty
  | b :: bs => isPrefixC pat (b :: bs) || isInfixC pat bs

/-- `true` iff the pattern occurs as a contiguous substring. -/
def containsStr (pat s : String) : Bool := isInfixC pat.data s.data

/-- A test environment in which every external command exits with status 7. -/
def ecAll7 : StepCall → ℕ := fun _ => 7

/-- A test environment in which the solvation step exits with status 2 and
every other command succeeds. -/
def ecSolvateFails : StepCall → ℕ := fun s =>
  if s.command = "gmx_mpi solvate -cp box.gro -cs spc216.gro -o solvated.gro -p topol.top" then 2
  else 0

end Groauto

/-! # Helper lemmas

Correctness of the integer-level binary64 rounding machinery on the values
the claims need: fractions whose value is an integer below `2^53` round to
themselves, and truncation recovers that integer. -/

namespace Groauto

theorem pow2_pos (j : ℕ) : (0:ℤ) < pow2 j := by
  simp only [pow2]
  positivity

theorem natLog2F_correct : ∀ (f n : ℕ), 0 < n → n < 2 ^ f →
    2 ^ natLog2F f n ≤ n ∧ n < 2 ^ (natLog2F f n + 1) := by
  intro f
  induction f with
  | zero =>
    intro n h1 h2
    simp at h2
    omega
  | succ f ih =>
    intro n h1 h2
    by_cases hn : n < 2
    · simp [natLog2F, hn]
      omega
    · have hd1 : 0 < n / 2 := by omega
      have hd2 : n / 2 < 2 ^ f := by
        have h3 : 2 ^ (f + 1) = 2 ^ f * 2 := by rw [Nat.pow_succ]
        omega
      obtain ⟨l1, l2⟩ := ih (n / 2) hd1 hd2
      simp only [natLog2F, if_neg (by omega : ¬ n < 2)]
      have e1 : 2 ^ (natLog2F f (n / 2) + 1) = 2 ^ natLog2F f (n / 2) * 2 := by
        rw [Nat.pow_succ]
      have e2 : 2 ^ (natLog2F f (n / 2) + 1 + 1) = 2 ^ (natLog2F f (n / 2) + 1) * 2 := by
        rw [Nat.pow_succ]
      omega

theorem natLog2_correct (n : ℕ) (h : 0 < n) :
    2 ^ natLog2 n ≤ n ∧ n < 2 ^ (natLog2 n + 1) :=
  natLog2F_correct n n h (Nat.lt_two_pow n)

theorem pow2le_iff (e : ℤ) (n d : ℤ) (hn : 0 < n) (hd : 0 < d) :
    pow2le e n d = true ↔ (2:ℚ) ^ e ≤ (n:ℚ) / (d:ℚ) := by
  have hdq : (0:ℚ) < (d:ℚ) := by exact_mod_cast hd
  rw [le_div_iff₀ hdq]
  unfold pow2le
  by_cases he : 0 ≤ e
  · rw [if_pos he]
    simp only [decide_eq_true_eq]
    rw [← @Int.cast_le ℚ _ _ _]
    push_cast [pow2]
    rw [show (2:ℚ) ^ e = (2:ℚ) ^ (e.toNat : ℤ) from by rw [Int.toNat_of_nonneg he],
      zpow_natCast]
    constructor <;> intro h <;> linarith
  · rw [if_neg he]
    push_neg at he
    simp only [decide_eq_true_eq]
    rw [← @Int.cast_le ℚ _ _ _]
    push_cast [pow2]
    rw [show ((2:ℚ)) ^ ((-e).toNat : ℕ) = (2:ℚ) ^ ((-e) : ℤ) from by
      rw [← zpow_natCast, Int.toNat_of_nonneg (by omega)]]
    have hp : (0:ℚ) < 2 ^ (-e) := zpow_pos (by norm_num) _
    have hp' : (0:ℚ) < 2 ^ e := zpow_pos (by norm_num) _
    have hq : (2:ℚ) ^ e * 2 ^ (-e) = 1 := by
      rw [← zpow_add₀ (by norm_num : (2:ℚ) ≠ 0)]
      simp
    constructor
    · intro h
      have h2 := mul_le_mul_of_nonneg_right h hp'.le
      have h3 : (n:ℚ) * 2 ^ (-e) * 2 ^ e = n := by
        rw [mul_assoc, mul_comm ((2:ℚ) ^ (-e)) _, hq, mul_one]
      rw [h3] at h2
      linarith
    · intro h
      have h2 := mul_le_mul_of_nonneg_right h hp.le
      have h3 : (2:ℚ) ^ e * d * 2 ^ (-e) = d := by
        rw [mul_comm ((2:ℚ) ^ e) _, mul_assoc, hq, mul_one]
      rw [h3] at h2
      exact h2

theorem flog2Frac_correct (n d : ℤ) (hn : 0 < n) (hd : 0 < d) :
    (2:ℚ) ^ flog2Frac n d ≤ (n:ℚ) / d ∧ (n:ℚ) / d < 2 ^ (flog2Frac n d + 1) := by
  have hnq : (0:ℚ) < (n:ℚ) := by exact_mod_cast hn
  have hdq : (0:ℚ) < (d:ℚ) := by exact_mod_cast hd
  obtain ⟨la1, la2⟩ := natLog2_correct n.toNat (by omega)
  obtain ⟨lb1, lb2⟩ := natLog2_correct d.toNat (by omega)
  set la := natLog2 n.toNat with hla
  set lb := natLog2 d.toNat with hlb
  have hcastn : ((n.toNat : ℕ) : ℚ) = (n:ℚ) := by
    exact_mod_cast Int.toNat_of_nonneg hn.le
  have hcastd : ((d.toNat : ℕ) : ℚ) = (d:ℚ) := by
    exact_mod_cast Int.toNat_of_nonneg hd.le
  have A1 : (2:ℚ) ^ ((la:ℤ)) ≤ (n:ℚ) := by
    rw [zpow_natCast]
    calc ((2:ℚ)) ^ (la:ℕ) = ((2 ^ la : ℕ) : ℚ) := by push_cast; ring
    _ ≤ ((n.toNat : ℕ) : ℚ) := by exact_mod_cast la1
    _ = (n:ℚ) := hcastn
  have A2 : (n:ℚ) < 2 ^ ((la:ℤ) + 1) := by
    rw [show ((la:ℤ) + 1) = ((la + 1 : ℕ) : ℤ) from by push_cast; ring, zpow_natCast]
    calc (n:ℚ) = ((n.toNat : ℕ) : ℚ) := hcastn.symm
    _ < ((2 ^ (la + 1) : ℕ) : ℚ) := by exact_mod_cast la2
    _ = ((2:ℚ)) ^ (la + 1 : ℕ) := by push_cast; ring
  have B1 : (2:ℚ) ^ ((lb:ℤ)) ≤ (d:ℚ) := by
    rw [zpow_natCast]
    calc ((2:ℚ)) ^ (lb:ℕ) = ((2 ^ lb : ℕ) : ℚ) := by push_cast; ring
    _ ≤ ((d.toNat : ℕ) : ℚ) := by exact_mod_cast lb1
    _ = (d:ℚ) := hcastd
  have B2 : (d:ℚ) < 2 ^ ((lb:ℤ) + 1) := by
    rw [show ((lb:ℤ) + 1) = ((lb + 1 : ℕ) : ℤ) from by push_cast; ring, zpow_natCast]
    calc (d:ℚ) = ((d.toNat : ℕ) : ℚ) := hcastd.symm
    _ < ((2 ^ (lb + 1) : ℕ) : ℚ) := by exact_mod_cast lb2
    _ = ((2:ℚ)) ^ (lb + 1 : ℕ) := by push_cast; ring
  have hU : (n:ℚ) / d < 2 ^ ((la:ℤ) - lb + 1) := by
    have h1 : (n:ℚ) / d < 2 ^ ((la:ℤ) + 1) / 2 ^ ((lb:ℤ)) :=
      div_lt_div₀ A2 B1 (by positivity) (by positivity)
    calc (n:ℚ) / d < 2 ^ ((la:ℤ) + 1) / 2 ^ ((lb:ℤ)) := h1
    _ = 2 ^ ((la:ℤ) - lb + 1) := by
        rw [← zpow_sub₀ (by norm_num : (2:ℚ) ≠ 0)]
        ring_nf
  have hL : (2:ℚ) ^ ((la:ℤ) - lb - 1) < (n:ℚ) / d := by
    have h1 : (2:ℚ) ^ ((la:ℤ)) / 2 ^ ((lb:ℤ) + 1) < (n:ℚ) / d :=
      div_lt_div₀' A1 B2 hnq hdq
    calc (2:ℚ) ^ ((la:ℤ) - lb - 1) = 2 ^ ((la:ℤ)) / 2 ^ ((lb:ℤ) + 1) := by
          rw [← zpow_sub₀ (by norm_num : (2:ℚ) ≠ 0)]
          ring_nf
    _ < (n:ℚ) / d := h1
  simp only [flog2Frac]
  rw [← hla, ← hlb]
  cases hb1 : pow2le ((la:ℤ) - lb + 1) n d with
  | true =>
    exact absurd ((pow2le_iff _ _ _ hn hd).mp hb1) (not_le.mpr hU)
  | false =>
    cases hb2 : pow2le ((la:ℤ) - lb) n d with
    | true =>
      simp only [Bool.false_eq_true, if_false, if_true]
      refine ⟨(pow2le_iff _ _ _ hn hd).mp hb2, ?_⟩
      by_contra hc
      push_neg at hc
      exact absurd ((pow2le_iff _ _ _ hn hd).mpr hc) (by simp [hb1])
    | false =>
      simp only [Bool.false_eq_true, if_false]
      constructor
      · exact le_of_lt (by simpa using hL)
      · have h2 : ¬ (2:ℚ) ^ ((la:ℤ) - lb) ≤ (n:ℚ) / d := fun hc =>
          absurd ((pow2le_iff _ _ _ hn hd).mpr hc) (by simp [hb2])
        push_neg at h2
        simpa using h2

end Groauto

namespace Groauto

theorem rneDiv_mul (a d : ℤ) (hd : 0 < d) : rneDiv (a * d) d = a := by
  have h1 : (a * d).ediv d = a := Int.mul_ediv_cancel a (by omega)
  have h2 : (a * d).emod d = 0 := Int.mul_emod_left a d
  simp only [rneDiv, h1, h2]
  rw [if_pos (by omega : 2 * (0:ℤ) < d)]

theorem roundPosFrac_form (m d : ℤ) (hm : 0 < m) (hm53 : m < 2 ^ 53) (hd : 0 < d) :
    ∃ j : ℕ, j ≤ 52 ∧ roundPosFrac (m * d) d = (m * pow2 j, -(j:ℤ)) := by
  have hmd : 0 < m * d := by positivity
  obtain ⟨lo, hi⟩ := flog2Frac_correct (m * d) d hmd hd
  set E := flog2Frac (m * d) d with hE
  have hdq : (0:ℚ) < (d:ℚ) := by exact_mod_cast hd
  have hq : ((m * d : ℤ):ℚ) / (d:ℚ) = (m:ℚ) := by
    push_cast
    field_simp
  rw [hq] at lo hi
  have hE0 : 0 ≤ E := by
    by_contra hc
    push_neg at hc
    have h1 : (2:ℚ) ^ (E + 1) ≤ 2 ^ (0:ℤ) := zpow_le_zpow_right₀ (by norm_num) (by omega)
    have h2 : (m:ℚ) < 1 := lt_of_lt_of_le hi (by simpa using h1)
    have h3 : m < 1 := by exact_mod_cast h2
    omega
  have hE52 : E ≤ 52 := by
    by_contra hc
    push_neg at hc
    have h1 : (2:ℚ) ^ (53:ℤ) ≤ 2 ^ E := zpow_le_zpow_right₀ (by norm_num) (by omega)
    have h2 : (2:ℚ) ^ (53:ℤ) ≤ (m:ℚ) := le_trans h1 lo
    have h3 : ((2:ℚ)) ^ (53:ℕ) ≤ (m:ℚ) := by
      rw [← zpow_natCast]
      exact_mod_cast h2
    have h4 : (2:ℤ) ^ (53:ℕ) ≤ m := by exact_mod_cast h3
    omega
  refine ⟨(52 - E).toNat, by omega, ?_⟩
  have htn : (((52 - E).toNat : ℕ) : ℤ) = 52 - E := Int.toNat_of_nonneg (by omega)
  simp only [roundPosFrac]
  rw [← hE, max_eq_left (by omega : (-1022:ℤ) ≤ E), if_pos (by omega : (0:ℤ) ≤ 52 - E)]
  rw [show m * d * pow2 (52 - E).toNat = (m * pow2 (52 - E).toNat) * d from by ring]
  rw [rneDiv_mul _ d hd]
  rw [Prod.mk.injEq]
  exact ⟨rfl, by omega⟩

theorem truncDyadic_form (m : ℤ) (hm : 0 ≤ m) (j : ℕ) :
    truncDyadic (m * pow2 j, -(j:ℤ)) = m := by
  by_cases hj : j = 0
  · subst hj
    simp [truncDyadic, pow2]
  · have hj' : ¬ (0:ℤ) ≤ -(j:ℤ) := by omega
    simp only [truncDyadic]
    rw [if_neg hj', if_pos (mul_nonneg hm (pow2_pos j).le)]
    have e1 : (m * pow2 j).toNat = m.toNat * 2 ^ j := by
      rw [pow2, show m * ((2 ^ j : ℕ):ℤ) = ((m.toNat * 2 ^ j : ℕ) : ℤ) from by
        push_cast [Int.toNat_of_nonneg hm]
        ring]
      exact Int.toNat_natCast _
    rw [neg_neg, Int.toNat_natCast, e1, Nat.mul_div_cancel _ (by positivity)]
    exact Int.toNat_of_nonneg hm

theorem roundFrac_form (m d : ℤ) (hm : 0 < m) (hm53 : m < 2 ^ 53) (hd : 0 < d) :
    ∃ j : ℕ, j ≤ 52 ∧ roundFrac (m * d) d = (m * pow2 j, -(j:ℤ)) := by
  obtain ⟨j, hj, h⟩ := roundPosFrac_form m d hm hm53 hd
  refine ⟨j, hj, ?_⟩
  have hmd : 0 < m * d := by positivity
  simp only [roundFrac]
  rw [if_neg (by omega : ¬ m * d = 0), if_neg (by omega : ¬ m * d < 0)]
  exact h

theorem trunc_roundFrac (m d : ℤ) (hm : 0 < m) (hm53 : m < 2 ^ 53) (hd : 0 < d) :
    truncDyadic (roundFrac (m * d) d) = m := by
  obtain ⟨j, _, h⟩ := roundFrac_form m d hm hm53 hd
  rw [h]
  exact truncDyadic_form m (by omega) j

theorem total_steps_exact (L : ℤ) (h1 : 0 < L) (h2 : L ≤ 9007199254) :
    total_steps (intToDouble L) = L * 1000000 := by
  have hp53 : (2:ℤ) ^ (53:ℕ) = 9007199254740992 := by norm_num
  obtain ⟨j1, _, hf1⟩ := roundFrac_form L 1 h1 (by omega) (by norm_num)
  obtain ⟨j2, _, hf2⟩ := roundFrac_form 1000000 1 (by norm_num) (by omega) (by norm_num)
  have e1 : intToDouble L = (L * pow2 j1, -(j1:ℤ)) := by
    rw [intToDouble]
    simpa using hf1
  have e2 : intToDouble 1000000 = (1000000 * pow2 j2, -(j2:ℤ)) := by
    rw [intToDouble]
    simpa using hf2
  rw [total_steps, e1, e2]
  simp only [mulDouble]
  have es : (L * pow2 j1) * (1000000 * pow2 j2) = (L * 1000000) * pow2 (j1 + j2) := by
    simp only [pow2]
    push_cast
    ring
  have et : (-(j1:ℤ)) + (-(j2:ℤ)) = -(((j1 + j2 : ℕ)):ℤ) := by push_cast; ring
  rw [es, et]
  have hM0 : 0 < L * 1000000 := by positivity
  have hM53 : L * 1000000 < 2 ^ 53 := by
    have hb : L * 1000000 ≤ 9007199254 * 1000000 := by
      exact mul_le_mul_of_nonneg_right h2 (by norm_num)
    omega
  by_cases hz : j1 + j2 = 0
  · rw [hz]
    simp only [roundDyadic]
    rw [if_pos (by omega : (0:ℤ) ≤ -((0:ℕ):ℤ))]
    rw [show (L * 1000000) * pow2 0 * pow2 ((-((0:ℕ):ℤ)).toNat) = (L * 1000000) * 1 from by
      simp [pow2]]
    exact trunc_roundFrac (L * 1000000) 1 hM0 hM53 (by norm_num)
  · simp only [roundDyadic]
    rw [if_neg (by omega : ¬ (0:ℤ) ≤ -((j1 + j2 : ℕ):ℤ)), neg_neg, Int.toNat_natCast]
    exact trunc_roundFrac (L * 1000000) (pow2 (j1 + j2)) hM0 hM53 (pow2_pos _)

end Groauto

/-! # Claim theorems -/

namespace Groauto

/-- C1 (corrected): for every temperature input and every simulation-length
input denoting a positive integer `L ≤ 9007199254` (so that `L` and
`L * 10^6` are exactly representable in binary64), the `nsteps` value written
into `md.mdp` equals `L * 1,000,000` exactly.  For non-integer lengths the
value is the binary64 truncation `int(float(L) * 1000000)` and can differ
(see the counterexample). -/
theorem C1_integer_length_steps_exact (L : ℕ) (t : String)
    (h1 : 0 < L) (h2 : L ≤ 9007199254) :
    total_steps (intToDouble (L:ℤ)) = (L:ℤ) * 1000000 ∧
    md_mdp t (total_steps (intToDouble (L:ℤ))) =
      mdPre ++ toString ((L:ℤ) * 1000000) ++ mdMid ++ t ++ tempGap ++ t ++ mdPost := by
  have h := total_steps_exact (L:ℤ) (by exact_mod_cast h1) (by exact_mod_cast h2)
  exact ⟨h, by rw [md_mdp, h]⟩

/-- C1 witness: at length 50 the production file step count is 50,000,000. -/
theorem C1_witness :
    total_steps (intToDouble ((50:ℕ):ℤ)) = ((50:ℕ):ℤ) * 1000000 ∧
    md_mdp "298" (total_steps (intToDouble ((50:ℕ):ℤ))) =
      mdPre ++ toString (((50:ℕ):ℤ) * 1000000) ++ mdMid ++ "298" ++ tempGap ++ "298" ++ mdPost :=
  C1_integer_length_steps_exact 50 "298" (by decide) (by decide)

/-- C1 counterexample: the valid length input `"4.1"` parses to the decimal
`41 * 10^(-1)`, and the step count written into `md.mdp` is 4099999, while
`4.1 * 1,000,000 = 4100000`: the claimed exact equality fails. -/
theorem C1_counterexample :
    parsePyFloat "4.1" = some (41, -1) ∧
    pyFloat (user_ns "4.1") = some (fromDecimal (41, -1)) ∧
    total_steps (fromDecimal (41, -1)) = 4099999 ∧
    ((41:ℚ) / 10) * 1000000 = 4100000 ∧
    (4099999 : ℤ) ≠ 4100000 :=
  ⟨by decide, by decide, by decide, by norm_num, by decide⟩

/-- C2 (confirmed): if the pipeline step at position `i` exits non-zero and
all earlier steps exited zero, then exactly the first `i + 1` steps are
invoked (none after the failing one), the diagnostic naming the failing
command and its status is printed, and the process exits with code 1. -/
theorem C2_failure_stops_pipeline (ec : StepCall → ℕ) :
    ∀ (steps : List StepCall) (i : ℕ) (hi : i < steps.length),
      (∀ j (hj : j < i), ec (steps.get ⟨j, lt_trans hj hi⟩) = 0) →
      ec (steps.get ⟨i, hi⟩) ≠ 0 →
      runPipeline ec steps =
        ⟨steps.take (i + 1),
         [runStepMsg (steps.get ⟨i, hi⟩).command (ec (steps.get ⟨i, hi⟩))], 1⟩ := by
  intro steps
  induction steps with
  | nil =>
    intro i hi
    simp at hi
  | cons s rest ih =>
    intro i hi hpre hfail
    cases i with
    | zero =>
      have hfail2 : ec s ≠ 0 := hfail
      simp only [runPipeline, if_neg hfail2]
      rfl
    | succ k =>
      have h0 : ec s = 0 := hpre 0 (Nat.succ_pos k)
      have hk : k < rest.length := by simpa using hi
      have hfail2 : ec (rest.get ⟨k, hk⟩) ≠ 0 := hfail
      have hrec := ih k hk (fun j hj => hpre (j + 1) (by omega)) hfail2
      simp only [runPipeline, if_pos h0, hrec]
      rfl

/-- C2 witness: with the solvation step (index 2) failing with status 2,
only the first three steps run, the diagnostic is printed, and the exit code
is 1. -/
theorem C2_witness :
    ecSolvateFails ((pipelineSteps "abc" (PyVal.str "50")).get ⟨2, by decide⟩) ≠ 0 ∧
    runPipeline ecSolvateFails (pipelineSteps "abc" (PyVal.str "50")) =
      ⟨(pipelineSteps "abc" (PyVal.str "50")).take 3,
       [runStepMsg ((pipelineSteps "abc" (PyVal.str "50")).get ⟨2, by decide⟩).command
          (ecSolvateFails ((pipelineSteps "abc" (PyVal.str "50")).get ⟨2, by decide⟩))],
       1⟩ :=
  ⟨by decide,
   C2_failure_stops_pipeline ecSolvateFails (pipelineSteps "abc" (PyVal.str "50")) 2
     (by decide) (by decide) (by decide)⟩

/-- C3 (confirmed): a blank temperature line yields the `int` 298 and a blank
length line yields the `int` 50; with both blank, the generated files carry
temperature string "298" and step count 50 * 10^6. -/
theorem C3_blank_input_defaults :
    user_temp "" = PyVal.int 298 ∧ user_ns "" = PyVal.int 50 ∧
    pyStr (user_temp "") = "298" ∧
    total_steps (intToDouble 50) = 50000000 ∧
    (scriptWritePhase "" "" emptyFS).2 "nvt.mdp" = some (nvt_mdp "298") ∧
    (scriptWritePhase "" "" emptyFS).2 "npt.mdp" = some (npt_mdp "298") ∧
    (scriptWritePhase "" "" emptyFS).2 "md.mdp" = some (md_mdp "298" 50000000) :=
  ⟨rfl, rfl, by decide, by decide, by decide, by decide, by decide⟩

/-- C4 (confirmed): in each equilibration file the two substituted `ref_t`
values are the same supplied temperature string `t`: each file is constant
boilerplate around `t ++ gap ++ t`. -/
theorem C4_ref_t_both_equal_temp (t : String) :
    nvt_mdp t = nvtPre ++ t ++ tempGap ++ t ++ nvtPost ∧
    npt_mdp t = nptPre ++ t ++ tempGap ++ t ++ nptPost :=
  ⟨rfl, rfl⟩

/-- C5 counterexample: with temperature string "999" (occurring nowhere in
the boilerplate) and step count 50,000,000, the temperature occurs in three
of the five generated files, not two; the step count occurs in exactly one. -/
theorem C5_counterexample :
    (mdp_content (PyVal.str "999") 50000000).countP (fun p => containsStr "999" p.2) = 3 ∧
    (3:ℕ) ≠ 2 ∧
    (mdp_content (PyVal.str "999") 50000000).countP
      (fun p => containsStr "50000000" p.2) = 1 :=
  ⟨by decide, by decide, by decide⟩

/-- C5 (corrected): the writer produces five fixed-name files whose content
is constant boilerplate except that the substituted temperature appears in
exactly three of the five files (`nvt.mdp`, `npt.mdp` and `md.mdp`,
duplicated for the two coupling groups in each) and the derived step count
appears in exactly one file (`md.mdp`). -/
theorem C5_template_structure (t : PyVal) (ts : ℤ) :
    mdp_content t ts =
      [("ions.mdp", ions_mdp),
       ("minim.mdp", minim_mdp),
       ("nvt.mdp", nvtPre ++ pyStr t ++ tempGap ++ pyStr t ++ nvtPost),
       ("npt.mdp", nptPre ++ pyStr t ++ tempGap ++ pyStr t ++ nptPost),
       ("md.mdp", mdPre ++ toString ts ++ mdMid ++ pyStr t ++ tempGap ++ pyStr t ++ mdPost)] ∧
    (mdp_content t ts).length = 5 :=
  ⟨rfl, rfl⟩

/-- C6 counterexample: when the first external command exits with status 7,
the program exits with code 1, not 7: the external status is not propagated
as the program's exit status. -/
theorem C6_counterexample :
    ecAll7 ((pipelineSteps "abc" (PyVal.str "50")).get ⟨0, by decide⟩) = 7 ∧
    (runPipeline ecAll7 (pipelineSteps "abc" (PyVal.str "50"))).exitCode = 1 ∧
    (1:ℕ) ≠ 7 :=
  ⟨rfl, by decide, by decide⟩

/-- C6 (corrected): the runner's exit code is 0 when every step succeeds and
the constant 1 on any failure, regardless of the failing process's own
status (which appears only in the printed diagnostic). -/
theorem C6_exit_code_on_failure (ec : StepCall → ℕ) :
    ∀ steps : List StepCall,
      (runPipeline ec steps).exitCode = if steps.all (fun s => ec s == 0) then 0 else 1 := by
  intro steps
  induction steps with
  | nil => simp [runPipeline]
  | cons s rest ih =>
    by_cases h : ec s = 0
    · simp [runPipeline, h, ih, List.all_cons]
    · simp [runPipeline, h, List.all_cons]

/-- C7 (confirmed): running the writer with parameters `(t2, n2)` after a
prior run with `(t1, n1)` leaves each of the five files exactly as a single
run with `(t2, n2)` on an empty directory would: content is fully determined
by the latest parameters, with no residual fields. -/
theorem C7_rerun_fully_overwrites (t1 t2 : PyVal) (n1 n2 : ℤ × ℤ) (fs : FS) (name : String)
    (h : name ∈ ["ions.mdp", "minim.mdp", "nvt.mdp", "npt.mdp", "md.mdp"]) :
    write_mdp_files_fs t2 n2 (write_mdp_files_fs t1 n1 fs) name =
      write_mdp_files_fs t2 n2 emptyFS name := by
  fin_cases h <;> rfl

/-- C7 witness: rewriting `md.mdp` with new parameters after a run with old
parameters matches a fresh single run. -/
theorem C7_witness :
    "md.mdp" ∈ ["ions.mdp", "minim.mdp", "nvt.mdp", "npt.mdp", "md.mdp"] ∧
    write_mdp_files_fs (PyVal.str "300") (1, 0)
        (write_mdp_files_fs (PyVal.int 298) (2, 0) emptyFS) "md.mdp" =
      write_mdp_files_fs (PyVal.str "300") (1, 0) emptyFS "md.mdp" :=
  ⟨by decide,
   C7_rerun_fully_overwrites (PyVal.int 298) (PyVal.str "300") (2, 0) (1, 0) emptyFS "md.mdp"
     (by decide)⟩

/-- C8 (confirmed): with structure base name input "abc", the first pipeline
command references `abc.pdb` as its input (`-f`) and the fixed
`protein_processed.gro` as its output (`-o`). -/
theorem C8_conversion_command :
    (pipelineSteps "abc" (PyVal.str "50")).get ⟨0, by decide⟩ =
      ⟨"gmx_mpi pdb2gmx -f abc.pdb -o protein_processed.gro -water tips3p -ignh",
       some "8"⟩ ∧
    containsStr "-f abc.pdb"
      ((pipelineSteps "abc" (PyVal.str "50")).get ⟨0, by decide⟩).command = true ∧
    containsStr "-o protein_processed.gro"
      ((pipelineSteps "abc" (PyVal.str "50")).get ⟨0, by decide⟩).command = true :=
  ⟨by decide, by decide, by decide⟩

/-- C9 (confirmed): a non-empty simulation-length input on which `float()`
fails makes the program abort before the template writer runs: the
`ValueError` surfaces and the filesystem is unchanged. -/
theorem C9_unparseable_length_aborts (t s : String) (fs : FS)
    (h1 : s ≠ "") (h2 : parsePyFloat s = none) :
    (scriptWritePhase t s fs).1.isSome = true ∧ (scriptWritePhase t s fs).2 = fs := by
  have hu : user_ns s = .str s := by rw [user_ns, inputOr, if_neg h1]
  have hp : pyFloat (user_ns s) = none := by
    rw [hu]
    simp [pyFloat, h2]
  rw [show scriptWritePhase t s fs = (some "ValueError: could not convert string to float", fs)
    from by simp only [scriptWritePhase, hp]]
  exact ⟨rfl, rfl⟩

/-- C9 witness: the input "hot" is rejected and no file is written. -/
theorem C9_witness :
    "hot" ≠ "" ∧ parsePyFloat "hot" = none ∧
    (scriptWritePhase "" "hot" emptyFS).1.isSome = true ∧
    (scriptWritePhase "" "hot" emptyFS).2 = emptyFS := by
  refine ⟨by decide, by decide, ?_, ?_⟩
  · exact (C9_unparseable_length_aborts "" "hot" emptyFS (by decide) (by decide)).1
  · exact (C9_unparseable_length_aborts "" "hot" emptyFS (by decide) (by decide)).2

/-- C10 (confirmed): any non-empty temperature input string is accepted with
no validation: the raw string is substituted verbatim as both `ref_t` values
in `nvt.mdp`, `npt.mdp` and `md.mdp`, and no error is raised for it. -/
theorem C10_raw_temperature_verbatim (t : String) (h : t ≠ "") (ns_s : String)
    (nsd : ℤ × ℤ) (hns : pyFloat (user_ns ns_s) = some nsd) (fs : FS) :
    (scriptWritePhase t ns_s fs).1 = none ∧
    (scriptWritePhase t ns_s fs).2 "nvt.mdp" =
      some (nvtPre ++ t ++ tempGap ++ t ++ nvtPost) ∧
    (scriptWritePhase t ns_s fs).2 "npt.mdp" =
      some (nptPre ++ t ++ tempGap ++ t ++ nptPost) ∧
    (scriptWritePhase t ns_s fs).2 "md.mdp" =
      some (mdPre ++ toString (total_steps nsd) ++ mdMid ++ t ++ tempGap ++ t ++ mdPost) := by
  have ht : user_temp t = .str t := by rw [user_temp, inputOr, if_neg h]
  simp only [scriptWritePhase, hns, ht]
  exact ⟨trivial, rfl, rfl, rfl⟩

/-- C10 witness: the non-numeric temperature "hot" is substituted verbatim
into all three temperature-coupled files. -/
theorem C10_witness :
    "hot" ≠ "" ∧ pyFloat (user_ns "") = some (intToDouble 50) ∧
    (scriptWritePhase "hot" "" emptyFS).1 = none ∧
    (scriptWritePhase "hot" "" emptyFS).2 "nvt.mdp" =
      some (nvtPre ++ "hot" ++ tempGap ++ "hot" ++ nvtPost) ∧
    (scriptWritePhase "hot" "" emptyFS).2 "npt.mdp" =
      some (nptPre ++ "hot" ++ tempGap ++ "hot" ++ nptPost) ∧
    (scriptWritePhase "hot" "" emptyFS).2 "md.mdp" =
      some (mdPre ++ toString (total_steps (intToDouble 50)) ++ mdMid ++ "hot" ++ tempGap
        ++ "hot" ++ mdPost) := by
  refine ⟨by decide, by decide, ?_⟩
  have h := C10_raw_temperature_verbatim "hot" (by decide) "" (intToDouble 50) (by decide) emptyFS
  exact h

end Groauto
